import Mathlib

/-!
Shallow embedding of the `tough` HTTP retry transport (`src/tough/src/http.rs`)
and the filesystem transport (`src/tough/src/transport.rs`), together with
spec-modelled fragments of the repository loader (root rotation, expiration
enforcement) whose source is not part of this snapshot.

Durations are modelled as exact non-negative rationals (`Dur` below; the
concrete values in the claims are exactly representable in Rust
`Duration`/`f32` arithmetic, so `mul_f32` is exact multiplication on
them).  The `u32` counter arithmetic of the retry state
is modelled with explicit wrap-around modulo `2^32` where the source performs
`u32` subtraction.  The network is modelled as a list of per-attempt outcomes,
consumed one element per executed request.
-/

namespace Tough

/-- Decidable equality for `Except`, used throughout the embedding. -/
instance {ε α : Type} [DecidableEq ε] [DecidableEq α] : DecidableEq (Except ε α) :=
  fun a b =>
    match a, b with
    | Except.ok x, Except.ok y =>
      if h : x = y then isTrue (by rw [h])
      else isFalse (fun hc => h (Except.ok.inj hc))
    | Except.error x, Except.error y =>
      if h : x = y then isTrue (by rw [h])
      else isFalse (fun hc => h (Except.error.inj hc))
    | Except.ok _, Except.error _ => isFalse (fun hc => Except.noConfusion hc)
    | Except.error _, Except.ok _ => isFalse (fun hc => Except.noConfusion hc)

/-- Modulus of the Rust `u32` type. -/
def U32MOD : Nat := 2 ^ 32

/-- Wrapping `u32` subtraction (release-build semantics of `a - b`),
for `a, b < U32MOD`. -/
def u32sub (a b : Nat) : Nat := (a + U32MOD - b) % U32MOD

/-- The kind of an `std::io::Error` as far as this embedding needs it:
`ErrorKind::NotFound` versus any other kind (tagged by a number). -/
inductive IoErrKind where
  | notFound
  | other (k : Nat)
deriving DecidableEq

/-- Embeds `reqwest::Error`: the only observations the code makes are the
optional HTTP status carried by the error; `tag` keeps distinct errors
distinguishable. -/
structure ReqError where
  status : Option Nat
  tag : Nat := 0
deriving DecidableEq

/-- Embeds `reqwest::blocking::Response`: HTTP status, the optional
`Accept-Ranges` header value (a header whose value fails `to_str` behaves
exactly like an absent header in `supports_range`, so it is modelled as
`none`), and the body as the sequence of outcomes of successive `read`
calls (`Ok size` or an I/O error). -/
structure Response where
  status : Nat
  acceptRanges : Option String
  body : List (Except (IoErrKind × Nat) Nat)
deriving DecidableEq

/-- The result of `client.execute(request)`: either a response or a
`reqwest::Error` raised before any HTTP header could be read. -/
def ExecResult : Type := Except ReqError Response

instance : DecidableEq ExecResult := by
  unfold ExecResult
  infer_instance

/-- A non-negative exact rational, used to embed `std::time::Duration` values
and the backoff factor.  The concrete values of the claims are exactly
representable in `Duration`/`f32` arithmetic, so `Duration::mul_f32` is exact
rational multiplication on them.  Values built by the operations below are
kept in lowest terms, so structural equality is value equality for them. -/
structure Dur where
  num : Nat
  den : Nat
deriving DecidableEq

/-- Builds a `Dur` reduced to lowest terms. -/
def Dur.mk' (n d : Nat) : Dur :=
  { num := n / Nat.gcd n d, den := d / Nat.gcd n d }

/-- Exact multiplication of two `Dur` values. -/
def Dur.mul (a b : Dur) : Dur := Dur.mk' (a.num * b.num) (b.den * a.den)

/-- Strict comparison of two `Dur` values (cross multiplication). -/
def Dur.ltb (a b : Dur) : Bool := a.num * b.den < b.num * a.den

/-- A whole number of time units as a `Dur`. -/
def durOf (n : Nat) : Dur := { num := n, den := 1 }

/-- Embeds `ClientSettings` (timeouts are irrelevant to the claims and
omitted; `tries` is a `u32`). -/
structure ClientSettings where
  tries : Nat
  initialBackoff : Dur
  maxBackoff : Dur
  backoffFactor : Dur
deriving DecidableEq

/-- Embeds the private `RetryState` struct: 0-based attempt counter (`u32`),
current wait duration and the next byte offset to request. -/
structure RetryState where
  currentTry : Nat
  wait : Dur
  nextByte : Nat
deriving DecidableEq

/-- `RetryState::new`. -/
def RetryState.new (initialWait : Dur) : RetryState :=
  { currentTry := 0, wait := initialWait, nextByte := 0 }

/-- `RetryState::increment`: from the second try on, multiply the wait by the
backoff factor, replacing it by `max_backoff` only when the product strictly
exceeds `max_backoff` and keeping the old wait when the product equals
`max_backoff` exactly (the `Ordering::Equal` arm of the source is a no-op);
then bump the try counter (a `u32` increment, hence the modulus). -/
def RetryState.increment (r : RetryState) (s : ClientSettings) : RetryState :=
  let r' :=
    if 0 < r.currentTry then
      let newWait := r.wait.mul s.backoffFactor
      if newWait.ltb s.maxBackoff then { r with wait := newWait }
      else if s.maxBackoff.ltb newWait then { r with wait := s.maxBackoff }
      else r
    else r
  { r' with currentTry := (r'.currentTry + 1) % U32MOD }

/-- The classification used by `fetch_with_retries`, embedding the
`HttpResult` enum. -/
inductive HttpResult where
  | ok (response : Response)
  | fatal (err : ReqError)
  | fileNotFound (err : ReqError)
  | retryable (err : ReqError)
deriving DecidableEq

/-- Embeds `reqwest::Response::error_for_status`: statuses in the client- or
server-error range (400–599) become an error carrying that status; anything
else passes through. -/
def error_for_status (resp : Response) : Except ReqError Response :=
  if 400 ≤ resp.status ∧ resp.status ≤ 599 then
    Except.error { status := some resp.status }
  else Except.ok resp

/-- `StatusCode::is_server_error`. -/
def isServerError (status : Nat) : Bool :=
  500 ≤ status && status ≤ 599

/-- Embeds `parse_status_err`: server-error statuses are retryable, 403/404
are file-not-found, every other (non-success) status is fatal. -/
def parse_status_err (err : ReqError) (status : Nat) : HttpResult :=
  if isServerError status then HttpResult.retryable err
  else if status = 403 ∨ status = 404 then HttpResult.fileNotFound err
  else HttpResult.fatal err

/-- Embeds `parse_response`: run `error_for_status`; a status-less error from
it is fatal, otherwise classify by status. -/
def parse_response (resp : Response) : HttpResult :=
  match error_for_status resp with
  | Except.ok ok => HttpResult.ok ok
  | Except.error err =>
    match err.status with
    | none => HttpResult.fatal err
    | some status => parse_status_err err status

/-- Embeds the `Into<HttpResult>` impl for the result of `client.execute`:
an error raised before the HTTP header could be read is retryable; a response
is classified by `parse_response`. -/
def classify : ExecResult → HttpResult
  | Except.error err => HttpResult.retryable err
  | Except.ok response => parse_response response

/-- Embeds the relevant content of a built `reqwest` request: the method and
the optional `Range` header. -/
structure Request where
  method : String
  rangeHeader : Option String
deriving DecidableEq

/-- Embeds `build_request`: a plain GET when `next_byte` is zero, otherwise a
GET carrying `Range: bytes=next_byte-`. -/
def build_request (nextByte : Nat) : Request :=
  if nextByte = 0 then { method := "GET", rangeHeader := none }
  else { method := "GET", rangeHeader := some ("bytes=" ++ toString nextByte ++ "-") }

/-- Embeds the `TransportErrorKind` enum of `transport.rs`. -/
inductive TransportErrorKind where
  | unsupportedUrlScheme
  | fileNotFound
  | failure
deriving DecidableEq

/-- A transport error as produced by the HTTP transport: its kind together
with the underlying `reqwest` error. -/
def TErr : Type := TransportErrorKind × ReqError

instance : DecidableEq TErr := by
  unfold TErr
  infer_instance

/-- Embeds the `RetryRead` struct: the copied retry state, the settings and
the current response (the URL plays no role in the claims). -/
structure RetryReadS where
  retryState : RetryState
  settings : ClientSettings
  response : Response
deriving DecidableEq

/-- The observable outcome of one call to `fetch_with_retries`: its result,
the final value of the caller-shared retry state, the number of requests
executed, the requests built, and the waits slept between attempts. -/
structure FetchResultS where
  result : Except TErr RetryReadS
  finalState : RetryState
  attempts : Nat
  requests : List Request
  waits : List Dur
deriving DecidableEq

/-- Embeds the loop of `fetch_with_retries`.  The environment `env` supplies
the outcome of each executed request in order; each loop iteration consumes
one element.  `none` means the environment was exhausted while the loop was
still running (the real loop would block on a further request). -/
def fetchLoop (cs : ClientSettings) (r : RetryState) :
    List ExecResult → Option FetchResultS
  | [] => none
  | o :: rest =>
    let req := build_request r.nextByte
    match classify o with
    | HttpResult.ok response =>
      some { result := Except.ok { retryState := r, settings := cs, response := response },
             finalState := r, attempts := 1, requests := [req], waits := [] }
    | HttpResult.fatal e =>
      some { result := Except.error (TransportErrorKind.failure, e),
             finalState := r, attempts := 1, requests := [req], waits := [] }
    | HttpResult.fileNotFound e =>
      some { result := Except.error (TransportErrorKind.fileNotFound, e),
             finalState := r, attempts := 1, requests := [req], waits := [] }
    | HttpResult.retryable e =>
      if u32sub cs.tries 1 ≤ r.currentTry then
        some { result := Except.error (TransportErrorKind.failure, e),
               finalState := r, attempts := 1, requests := [req], waits := [] }
      else
        let r' := r.increment cs
        match fetchLoop cs r' rest with
        | none => none
        | some out =>
          some { out with attempts := out.attempts + 1,
                          requests := req :: out.requests,
                          waits := r'.wait :: out.waits }

/-- Substring containment on strings, used to embed Rust's
`str::contains` for the `Accept-Ranges` header value. -/
def strContains (s pat : String) : Bool :=
  (List.range (s.length + 1)).any (fun i => pat.toList.isPrefixOf (s.toList.drop i))

/-- Embeds `RetryRead::supports_range`: true exactly when the response carries
an `Accept-Ranges` header whose value contains `bytes`. -/
def supports_range (resp : Response) : Bool :=
  match resp.acceptRanges with
  | none => false
  | some v => strContains v "bytes"

/-- An error surfaced by `RetryRead::read`: either the `std::io::Error`
produced by reading the response body, or the wrapper
`std::io::Error::new(ErrorKind::NotFound, e)` built around a transport error
`e` of a failed mid-stream resume fetch. -/
inductive ReadErr where
  | fromBody (e : IoErrKind × Nat)
  | resumeFailed (kind : IoErrKind) (te : TErr)
deriving DecidableEq

/-- The observable outcome of one call to `RetryRead::read`: the returned
`std::io::Result<usize>`, the final retry state, the response left in the
reader, the number of resume requests executed, those requests, and the
unconsumed environment. -/
structure ReadResultS where
  result : Except ReadErr Nat
  finalState : RetryState
  finalResponse : Response
  resumeAttempts : Nat
  resumeRequests : List Request
  envRest : List ExecResult
deriving DecidableEq

/-- Embeds the loop of `RetryRead::read`.  A successful body read returns its
size and advances `next_byte`; an exhausted body returns `Ok 0` (EOF).  On a
body read error: if retries are exhausted the error is returned; otherwise the
shared retry state is incremented, and if the current response did not
advertise byte-range support the error is returned; otherwise, after the
backoff sleep, `fetch_with_retries` is re-entered with the shared state (the
environment supplies its attempt outcomes), a resume failure being wrapped as
an `ErrorKind::NotFound` I/O error and a resume success replacing the
response.  `fuel` bounds the number of resume rounds (a modelling artifact;
`none` means fuel or environment ran out mid-loop). -/
def readLoop (cs : ClientSettings) :
    Nat → RetryState → Response → List ExecResult → Option ReadResultS
  | 0, _, _, _ => none
  | fuel + 1, r, resp, env =>
    match resp.body with
    | [] =>
      some { result := Except.ok 0, finalState := r, finalResponse := resp,
             resumeAttempts := 0, resumeRequests := [], envRest := env }
    | Except.ok sz :: bodyRest =>
      some { result := Except.ok sz,
             finalState := { r with nextByte := r.nextByte + sz },
             finalResponse := { resp with body := bodyRest },
             resumeAttempts := 0, resumeRequests := [], envRest := env }
    | Except.error e :: bodyRest =>
      if u32sub cs.tries 1 ≤ r.currentTry then
        some { result := Except.error (ReadErr.fromBody e), finalState := r,
               finalResponse := { resp with body := bodyRest },
               resumeAttempts := 0, resumeRequests := [], envRest := env }
      else
        let r' := r.increment cs
        if supports_range resp then
          match fetchLoop cs r' env with
          | none => none
          | some out =>
            match out.result with
            | Except.error te =>
              some { result := Except.error (ReadErr.resumeFailed IoErrKind.notFound te),
                     finalState := out.finalState,
                     finalResponse := { resp with body := bodyRest },
                     resumeAttempts := out.attempts,
                     resumeRequests := out.requests,
                     envRest := env.drop out.attempts }
            | Except.ok rr =>
              match readLoop cs fuel out.finalState rr.response (env.drop out.attempts) with
              | none => none
              | some res =>
                some { res with resumeAttempts := out.attempts + res.resumeAttempts,
                                resumeRequests := out.requests ++ res.resumeRequests }
        else
          some { result := Except.error (ReadErr.fromBody e), finalState := r',
                 finalResponse := { resp with body := bodyRest },
                 resumeAttempts := 0, resumeRequests := [], envRest := env }

/-- A URL as far as `FilesystemTransport::fetch` observes it: its scheme and
its path. -/
structure UrlS where
  scheme : String
  path : String
deriving DecidableEq

/-- Embeds `FilesystemTransport::fetch`.  The filesystem is a function from
paths to the result of `File::open`: file contents, or the `std::io::Error`
kind of the failure.  A non-`file` scheme yields `UnsupportedUrlScheme`; an
open failure of kind `NotFound` maps to `FileNotFound` and every other open
failure maps to `Failure`. -/
def FilesystemTransport.fetch (fs : String → Except IoErrKind (List Nat))
    (url : UrlS) : Except TransportErrorKind (List Nat) :=
  if url.scheme ≠ "file" then
    Except.error TransportErrorKind.unsupportedUrlScheme
  else
    match fs url.path with
    | Except.error e =>
      Except.error
        (match e with
         | IoErrKind.notFound => TransportErrorKind.fileNotFound
         | IoErrKind.other _ => TransportErrorKind.failure)
    | Except.ok contents => Except.ok contents

/-- Outcome of fetching one metadata document, as the spec's transport
taxonomy sees it. -/
inductive FetchRes (α : Type) where
  | found (a : α)
  | notFound
  | failure
deriving DecidableEq

/-- A root document, reduced to its version (signatures are abstracted into
the `verify` parameter of the rotation algorithm). -/
structure RootDoc where
  version : Nat
deriving DecidableEq

/-- Errors of the spec-modelled root rotation. -/
inductive RotationErr where
  | exceededMaxRootRotations
  | fetchFailure
  | verificationFailed
deriving DecidableEq

/-- Modelled from the spec: the `Repository` root-rotation algorithm (§4.2)
is not part of this source snapshot (only its test is), so it is modelled
from the spec's words: repeatedly fetch version N+1; `NotFound` means
rotation is complete with the current root and is not an error; `Failure` is
fatal; a fetched document must verify against both the previous and its own
root role (abstracted into `verify`) and bear version exactly N+1; the
rotation count is bounded by `limit`, exhausting it is fatal. -/
def rotateRoot (repo : Nat → FetchRes RootDoc) (verify : RootDoc → RootDoc → Bool) :
    Nat → RootDoc → Except RotationErr RootDoc
  | 0, current =>
    match repo (current.version + 1) with
    | FetchRes.notFound => Except.ok current
    | FetchRes.failure => Except.error RotationErr.fetchFailure
    | FetchRes.found _ => Except.error RotationErr.exceededMaxRootRotations
  | limit + 1, current =>
    match repo (current.version + 1) with
    | FetchRes.notFound => Except.ok current
    | FetchRes.failure => Except.error RotationErr.fetchFailure
    | FetchRes.found doc =>
      if verify current doc && doc.version == current.version + 1 then
        rotateRoot repo verify limit doc
      else Except.error RotationErr.verificationFailed

/-- A repository serving exactly the consecutive root versions `1..K` and
nothing beyond. -/
def consecRoots (k : Nat) (v : Nat) : FetchRes RootDoc :=
  if 1 ≤ v ∧ v ≤ k then FetchRes.found { version := v } else FetchRes.notFound

/-- The role whose check failed, for typed load errors. -/
inductive RoleType where
  | root
  | timestamp
  | snapshot
  | targets
deriving DecidableEq

/-- Expiration enforcement mode: `enforcing` is the source's `Safe`,
`permissive` is the source's `Unsafe`. -/
inductive ExpirationEnforcement where
  | enforcing
  | permissive
deriving DecidableEq

/-- Typed errors of the spec-modelled metadata loader. -/
inductive LoadErr where
  | expiredMetadata (role : RoleType)
  | signatureThresholdNotMet (role : RoleType)
  | digestMismatch (role : RoleType)
deriving DecidableEq

/-- One metadata document as the loader observes it: version, expiration
instant, and the abstracted outcomes of its threshold-signature check and of
the digest comparison against the document that pins it. -/
structure MetaDoc where
  version : Nat
  expires : Int
  sigOk : Bool
  digestOk : Bool := true
deriving DecidableEq

/-- The input to one load: the current time and the three chained top-level
ephemeral documents. -/
structure RepoInput where
  now : Int
  timestamp : MetaDoc
  snapshot : MetaDoc
  targets : MetaDoc
deriving DecidableEq

/-- The validated aggregate produced by a successful load. -/
structure Repository where
  timestamp : MetaDoc
  snapshot : MetaDoc
  targets : MetaDoc
deriving DecidableEq

/-- Modelled from the spec: the per-document expiration gate (§4.3, §6).  A
document is expired when its expiration instant is not in the future; the
gate raises `expiredMetadata` for the document's role in enforcing mode and
passes everything in permissive mode. -/
def checkExpiration (mode : ExpirationEnforcement) (now : Int) (doc : MetaDoc)
    (role : RoleType) : Except LoadErr Unit :=
  match mode with
  | ExpirationEnforcement.permissive => Except.ok ()
  | ExpirationEnforcement.enforcing =>
    if doc.expires ≤ now then Except.error (LoadErr.expiredMetadata role)
    else Except.ok ()

/-- Modelled from the spec: the per-document checks of the chained loader
(§4.3): threshold signatures, digest binding, then the expiration gate. -/
def loadRole (mode : ExpirationEnforcement) (now : Int) (doc : MetaDoc)
    (role : RoleType) : Except LoadErr Unit :=
  if !doc.sigOk then Except.error (LoadErr.signatureThresholdNotMet role)
  else if !doc.digestOk then Except.error (LoadErr.digestMismatch role)
  else checkExpiration mode now doc role

/-- Modelled from the spec: the strictly sequential chained metadata loader
(§4.3), timestamp then snapshot then targets, aborting at the first failing
check; `Repository::load` itself is not part of this source snapshot (only
its tests are). -/
def loadRepository (mode : ExpirationEnforcement) (input : RepoInput) :
    Except LoadErr Repository := do
  let _ ← loadRole mode input.now input.timestamp RoleType.timestamp
  let _ ← loadRole mode input.now input.snapshot RoleType.snapshot
  let _ ← loadRole mode input.now input.targets RoleType.targets
  pure { timestamp := input.timestamp, snapshot := input.snapshot,
         targets := input.targets }

/-- True exactly when the outcome is classified retryable. -/
def retryableOutcome (o : ExecResult) : Bool :=
  match classify o with
  | HttpResult.retryable _ => true
  | _ => false

/-- Exponentiation of a `Dur` factor. -/
def Dur.pow (f : Dur) : Nat → Dur
  | 0 => durOf 1
  | k + 1 => (Dur.pow f k).mul f

/-- Minimum of two `Dur` values. -/
def Dur.minD (a b : Dur) : Dur := if a.ltb b then a else b

/-- Follows the claim's words, for the refinement comparison of C4: the wait
before the k-th retry is B0 for k = 1 and grows geometrically by factor F
thereafter, capped at Bmax. -/
def claimWait (b0 f bmax : Dur) (k : Nat) : Dur :=
  if k ≤ 1 then b0 else Dur.minD (b0.mul (Dur.pow f (k - 1))) bmax

/-- One backoff step as the source actually performs it: multiply the wait by
the factor; take the product when it is strictly below the maximum, clamp to
the maximum when it strictly exceeds it, and keep the previous wait when the
product equals the maximum exactly. -/
def amendedStep (f bmax w : Dur) : Dur :=
  let nw := w.mul f
  if nw.ltb bmax then nw else if bmax.ltb nw then bmax else w

/-- The wait before the k-th retry under the source's stepping rule. -/
def amendedWait (b0 f bmax : Dur) : Nat → Dur
  | 0 => b0
  | 1 => b0
  | k + 2 => amendedStep f bmax (amendedWait b0 f bmax (k + 1))

section Lemmas

lemma u32sub_one (t : Nat) (h1 : 1 ≤ t) (h2 : t < U32MOD) : u32sub t 1 = t - 1 := by
  unfold u32sub U32MOD at *
  omega

lemma increment_currentTry_mod (r : RetryState) (cs : ClientSettings) :
    (r.increment cs).currentTry = (r.currentTry + 1) % U32MOD := by
  unfold RetryState.increment
  dsimp only
  split
  · split
    · simp
    · split
      · simp
      · simp
  · simp

lemma increment_currentTry (r : RetryState) (cs : ClientSettings)
    (h : r.currentTry + 1 < U32MOD) :
    (r.increment cs).currentTry = r.currentTry + 1 := by
  rw [increment_currentTry_mod]
  exact Nat.mod_eq_of_lt h

lemma increment_nextByte (r : RetryState) (cs : ClientSettings) :
    (r.increment cs).nextByte = r.nextByte := by
  unfold RetryState.increment
  dsimp only
  split
  · split
    · simp
    · split
      · simp
      · simp
  · simp

lemma fetchLoop_head (cs : ClientSettings) :
    ∀ (env : List ExecResult) (r : RetryState) (out : FetchResultS),
      fetchLoop cs r env = some out →
      1 ≤ out.attempts ∧ out.requests.head? = some (build_request r.nextByte)
  | [], _, _, h => by simp [fetchLoop] at h
  | o :: rest, r, out, h => by
    rw [fetchLoop] at h
    rcases hcl : classify o with resp | e | e | e <;> simp only [hcl] at h
    · obtain rfl := Option.some.inj h
      exact ⟨Nat.le_refl 1, rfl⟩
    · obtain rfl := Option.some.inj h
      exact ⟨Nat.le_refl 1, rfl⟩
    · obtain rfl := Option.some.inj h
      exact ⟨Nat.le_refl 1, rfl⟩
    · by_cases hex : u32sub cs.tries 1 ≤ r.currentTry
      · rw [if_pos hex] at h
        obtain rfl := Option.some.inj h
        exact ⟨Nat.le_refl 1, rfl⟩
      · rw [if_neg hex] at h
        rcases hrec : fetchLoop cs (r.increment cs) rest with _ | out'
        · rw [hrec] at h
          exact absurd h (by simp)
        · rw [hrec] at h
          obtain rfl := Option.some.inj h
          exact ⟨Nat.le_add_left 1 out'.attempts, rfl⟩

lemma fetchLoop_bound (cs : ClientSettings) (h1 : 1 ≤ cs.tries) (h2 : cs.tries < U32MOD) :
    ∀ (env : List ExecResult) (r : RetryState) (out : FetchResultS),
      r.currentTry < cs.tries →
      fetchLoop cs r env = some out →
      out.attempts + r.currentTry ≤ cs.tries ∧
      out.finalState.currentTry + 1 = r.currentTry + out.attempts ∧
      out.finalState.nextByte = r.nextByte ∧
      (∀ rr, out.result = Except.ok rr → rr.retryState = out.finalState)
  | [], _, _, _, h => by simp [fetchLoop] at h
  | o :: rest, r, out, hc, h => by
    rw [fetchLoop] at h
    rcases hcl : classify o with resp | e | e | e <;> simp only [hcl] at h
    · obtain rfl := Option.some.inj h
      refine ⟨show 1 + r.currentTry ≤ cs.tries by omega, rfl, rfl, ?_⟩
      intro rr hrr
      obtain rfl := Except.ok.inj hrr
      rfl
    · obtain rfl := Option.some.inj h
      exact ⟨show 1 + r.currentTry ≤ cs.tries by omega, rfl, rfl,
        fun rr hrr => absurd hrr (by simp)⟩
    · obtain rfl := Option.some.inj h
      exact ⟨show 1 + r.currentTry ≤ cs.tries by omega, rfl, rfl,
        fun rr hrr => absurd hrr (by simp)⟩
    · by_cases hex : u32sub cs.tries 1 ≤ r.currentTry
      · rw [if_pos hex] at h
        obtain rfl := Option.some.inj h
        exact ⟨show 1 + r.currentTry ≤ cs.tries by omega, rfl, rfl,
          fun rr hrr => absurd hrr (by simp)⟩
      · rw [if_neg hex] at h
        rw [u32sub_one cs.tries h1 h2] at hex
        have hlt : r.currentTry + 1 < cs.tries := by omega
        have hmod : r.currentTry + 1 < U32MOD := by omega
        have hct := increment_currentTry r cs hmod
        have hnb := increment_nextByte r cs
        rcases hrec : fetchLoop cs (r.increment cs) rest with _ | out'
        · rw [hrec] at h
          exact absurd h (by simp)
        · rw [hrec] at h
          obtain rfl := Option.some.inj h
          obtain ⟨ih1, ih2, ih3, ih4⟩ :=
            fetchLoop_bound cs h1 h2 rest (r.increment cs) out' (by omega) hrec
          refine ⟨show out'.attempts + 1 + r.currentTry ≤ cs.tries by omega,
            show out'.finalState.currentTry + 1 = r.currentTry + (out'.attempts + 1) by omega,
            show out'.finalState.nextByte = r.nextByte by rw [ih3, hnb], ih4⟩

lemma fetchLoop_lastErr (cs : ClientSettings) :
    ∀ (env : List ExecResult) (r : RetryState) (out : FetchResultS),
      env.all retryableOutcome = true →
      fetchLoop cs r env = some out →
      ∃ o e, env[out.attempts - 1]? = some o ∧ classify o = HttpResult.retryable e ∧
        out.result = Except.error (TransportErrorKind.failure, e)
  | [], _, _, _, h => by simp [fetchLoop] at h
  | o :: rest, r, out, hall, h => by
    rw [List.all_cons, Bool.and_eq_true] at hall
    rw [fetchLoop] at h
    rcases hcl : classify o with resp | e | e | e <;> simp only [hcl] at h
    · exfalso
      have h1 := hall.1
      unfold retryableOutcome at h1
      rw [hcl] at h1
      simp at h1
    · exfalso
      have h1 := hall.1
      unfold retryableOutcome at h1
      rw [hcl] at h1
      simp at h1
    · exfalso
      have h1 := hall.1
      unfold retryableOutcome at h1
      rw [hcl] at h1
      simp at h1
    · by_cases hex : u32sub cs.tries 1 ≤ r.currentTry
      · rw [if_pos hex] at h
        obtain rfl := Option.some.inj h
        exact ⟨o, e, by simp, hcl, rfl⟩
      · rw [if_neg hex] at h
        rcases hrec : fetchLoop cs (r.increment cs) rest with _ | out'
        · rw [hrec] at h
          exact absurd h (by simp)
        · rw [hrec] at h
          obtain rfl := Option.some.inj h
          obtain ⟨o', e', iha, ihb, ihc⟩ :=
            fetchLoop_lastErr cs rest (r.increment cs) out' hall.2 hrec
          obtain ⟨hpos, -⟩ := fetchLoop_head cs rest (r.increment cs) out' hrec
          refine ⟨o', e', ?_, ihb, ihc⟩
          have : out'.attempts + 1 - 1 = (out'.attempts - 1) + 1 := by omega
          rw [this]
          simpa using iha

lemma readLoop_bound (cs : ClientSettings) (h1 : 1 ≤ cs.tries) (h2 : cs.tries < U32MOD) :
    ∀ (fuel : Nat) (r : RetryState) (resp : Response) (env : List ExecResult)
      (res : ReadResultS),
      r.currentTry < cs.tries →
      readLoop cs fuel r resp env = some res →
      res.resumeAttempts + r.currentTry + 1 ≤ cs.tries
  | 0, _, _, _, _, _, h => by simp [readLoop] at h
  | fuel + 1, r, resp, env, res, hc, h => by
    rw [readLoop] at h
    rcases hb : resp.body with _ | ⟨ev, bodyRest⟩ <;> rw [hb] at h
    · obtain rfl := Option.some.inj h
      show 0 + r.currentTry + 1 ≤ cs.tries
      omega
    · rcases ev with e | sz
      · simp only at h
        by_cases hex : u32sub cs.tries 1 ≤ r.currentTry
        · rw [if_pos hex] at h
          obtain rfl := Option.some.inj h
          show 0 + r.currentTry + 1 ≤ cs.tries
          omega
        · rw [if_neg hex] at h
          rw [u32sub_one cs.tries h1 h2] at hex
          have hmod : r.currentTry + 1 < U32MOD := by omega
          have hct := increment_currentTry r cs hmod
          by_cases hsr : supports_range resp
          · rw [if_pos hsr] at h
            rcases hfe : fetchLoop cs (r.increment cs) env with _ | out
            · rw [hfe] at h
              exact absurd h (by simp)
            · simp only [hfe] at h
              obtain ⟨hb1, hb2, -, -⟩ :=
                fetchLoop_bound cs h1 h2 env (r.increment cs) out (by omega) hfe
              rcases hres : out.result with te | rr <;> simp only [hres] at h
              · obtain rfl := Option.some.inj h
                show out.attempts + r.currentTry + 1 ≤ cs.tries
                omega
              · rcases hrec : readLoop cs fuel out.finalState rr.response
                    (env.drop out.attempts) with _ | res'
                · rw [hrec] at h
                  exact absurd h (by simp)
                · rw [hrec] at h
                  obtain rfl := Option.some.inj h
                  have ihb := readLoop_bound cs h1 h2 fuel out.finalState rr.response
                    (env.drop out.attempts) res' (by omega) hrec
                  show out.attempts + res'.resumeAttempts + r.currentTry + 1 ≤ cs.tries
                  omega
          · rw [if_neg hsr] at h
            obtain rfl := Option.some.inj h
            show 0 + r.currentTry + 1 ≤ cs.tries
            omega
      · simp only at h
        obtain rfl := Option.some.inj h
        show 0 + r.currentTry + 1 ≤ cs.tries
        omega

lemma increment_wait (r : RetryState) (cs : ClientSettings) :
    (r.increment cs).wait = if 0 < r.currentTry
      then amendedStep cs.backoffFactor cs.maxBackoff r.wait else r.wait := by
  unfold RetryState.increment amendedStep
  dsimp only
  by_cases hc : 0 < r.currentTry
  · rw [if_pos hc, if_pos hc]
    by_cases h1 : (r.wait.mul cs.backoffFactor).ltb cs.maxBackoff
    · rw [if_pos h1, if_pos h1]
    · rw [if_neg h1, if_neg h1]
      by_cases h2 : cs.maxBackoff.ltb (r.wait.mul cs.backoffFactor)
      · rw [if_pos h2, if_pos h2]
      · rw [if_neg h2, if_neg h2]
  · rw [if_neg hc, if_neg hc]

lemma increment_wait_amended (cs : ClientSettings) (r : RetryState)
    (hw : r.wait = amendedWait cs.initialBackoff cs.backoffFactor cs.maxBackoff r.currentTry) :
    (r.increment cs).wait
      = amendedWait cs.initialBackoff cs.backoffFactor cs.maxBackoff (r.currentTry + 1) := by
  rw [increment_wait]
  by_cases hc : 0 < r.currentTry
  · rw [if_pos hc]
    obtain ⟨k, hk⟩ : ∃ k, r.currentTry = k + 1 := ⟨r.currentTry - 1, by omega⟩
    rw [hk] at hw
    rw [hk, hw]
    rfl
  · rw [if_neg hc]
    have h0 : r.currentTry = 0 := by omega
    rw [h0] at hw
    rw [h0, hw]
    rfl

lemma fetchLoop_waits (cs : ClientSettings) (h1 : 1 ≤ cs.tries) (h2 : cs.tries < U32MOD) :
    ∀ (env : List ExecResult) (r : RetryState) (out : FetchResultS),
      env.all retryableOutcome = true →
      r.currentTry < cs.tries →
      r.wait = amendedWait cs.initialBackoff cs.backoffFactor cs.maxBackoff r.currentTry →
      fetchLoop cs r env = some out →
      out.waits = (List.range (out.attempts - 1)).map
        (fun i => amendedWait cs.initialBackoff cs.backoffFactor cs.maxBackoff
          (r.currentTry + i + 1))
  | [], _, _, _, _, _, h => by simp [fetchLoop] at h
  | o :: rest, r, out, hall, hc, hw, h => by
    rw [List.all_cons, Bool.and_eq_true] at hall
    rw [fetchLoop] at h
    rcases hcl : classify o with resp | e | e | e <;> simp only [hcl] at h
    · exfalso
      have hro := hall.1
      unfold retryableOutcome at hro
      rw [hcl] at hro
      simp at hro
    · exfalso
      have hro := hall.1
      unfold retryableOutcome at hro
      rw [hcl] at hro
      simp at hro
    · exfalso
      have hro := hall.1
      unfold retryableOutcome at hro
      rw [hcl] at hro
      simp at hro
    · by_cases hex : u32sub cs.tries 1 ≤ r.currentTry
      · rw [if_pos hex] at h
        obtain rfl := Option.some.inj h
        rfl
      · rw [if_neg hex] at h
        rw [u32sub_one cs.tries h1 h2] at hex
        have hmod : r.currentTry + 1 < U32MOD := by omega
        have hct := increment_currentTry r cs hmod
        have hw' := increment_wait_amended cs r hw
        rcases hrec : fetchLoop cs (r.increment cs) rest with _ | out'
        · rw [hrec] at h
          exact absurd h (by simp)
        · rw [hrec] at h
          obtain rfl := Option.some.inj h
          obtain ⟨hpos, -⟩ := fetchLoop_head cs rest (r.increment cs) out' hrec
          have ih := fetchLoop_waits cs h1 h2 rest (r.increment cs) out' hall.2
            (by omega) (by rw [hw', hct]) hrec
          show (r.increment cs).wait :: out'.waits
            = (List.range (out'.attempts + 1 - 1)).map
              (fun i => amendedWait cs.initialBackoff cs.backoffFactor cs.maxBackoff
                (r.currentTry + i + 1))
          obtain ⟨k, hk⟩ : ∃ k, out'.attempts = k + 1 := ⟨out'.attempts - 1, by omega⟩
          rw [ih, hw', hk]
          simp only [hct]
          rw [show k + 1 + 1 - 1 = k + 1 from rfl, show k + 1 - 1 = k from rfl]
          rw [List.range_succ_eq_map, List.map_cons, List.map_map]
          have htail : (List.range k).map
              (fun i => amendedWait cs.initialBackoff cs.backoffFactor cs.maxBackoff
                (r.currentTry + 1 + i + 1))
            = (List.range k).map
              ((fun i => amendedWait cs.initialBackoff cs.backoffFactor cs.maxBackoff
                (r.currentTry + i + 1)) ∘ Nat.succ) := by
            apply List.map_congr_left
            intro i _
            simp only [Function.comp_apply]
            congr 1
            omega
          rw [htail]

end Lemmas

/-- C3: for a total-tries value T with 1 ≤ T (< 2^32), the retry machinery
makes at most T request attempts in total: any one `fetch_with_retries` call
consumes at most T minus the shared counter's current value attempts, and an
initial fetch followed by the mid-stream resume fetches of the returned
reader (which share the same counter) together make at most T attempts.
When attempts are exhausted, the error returned is the last one observed
(the classification of the last executed outcome on the fetch side, and the
last body read error on the read side). -/
theorem claim_c3 :
    (∀ (cs : ClientSettings) (r : RetryState) env out,
      1 ≤ cs.tries → cs.tries < U32MOD → r.currentTry < cs.tries →
      fetchLoop cs r env = some out → out.attempts + r.currentTry ≤ cs.tries)
    ∧ (∀ (cs : ClientSettings) env out rr fuel env2 res,
      1 ≤ cs.tries → cs.tries < U32MOD →
      fetchLoop cs (RetryState.new cs.initialBackoff) env = some out →
      out.result = Except.ok rr →
      readLoop cs fuel rr.retryState rr.response env2 = some res →
      out.attempts + res.resumeAttempts ≤ cs.tries)
    ∧ (∀ (cs : ClientSettings) (r : RetryState) env out,
      env.all retryableOutcome = true →
      fetchLoop cs r env = some out →
      ∃ o e, env[out.attempts - 1]? = some o ∧ classify o = HttpResult.retryable e ∧
        out.result = Except.error (TransportErrorKind.failure, e))
    ∧ (∀ (cs : ClientSettings) (r : RetryState) (resp : Response) env fuel e bodyRest,
      resp.body = Except.error e :: bodyRest →
      u32sub cs.tries 1 ≤ r.currentTry →
      ∃ res, readLoop cs (fuel + 1) r resp env = some res
        ∧ res.result = Except.error (ReadErr.fromBody e)) := by
  refine ⟨?_, ?_, ?_, ?_⟩
  · intro cs r env out h1 h2 hc hfe
    exact (fetchLoop_bound cs h1 h2 env r out hc hfe).1
  · intro cs env out rr fuel env2 res h1 h2 hfe hok hrd
    have hc0 : (RetryState.new cs.initialBackoff).currentTry < cs.tries := h1
    obtain ⟨hb1, hb2, -, hb4⟩ :=
      fetchLoop_bound cs h1 h2 env (RetryState.new cs.initialBackoff) out hc0 hfe
    obtain ⟨hpos, -⟩ :=
      fetchLoop_head cs env (RetryState.new cs.initialBackoff) out hfe
    have hrr : rr.retryState = out.finalState := hb4 rr hok
    have hcf : out.finalState.currentTry < cs.tries := by
      have : (RetryState.new cs.initialBackoff).currentTry = 0 := rfl
      omega
    have := readLoop_bound cs h1 h2 fuel rr.retryState rr.response env2 res
      (by rw [hrr]; exact hcf) hrd
    rw [hrr] at this
    have : res.resumeAttempts + out.finalState.currentTry + 1 ≤ cs.tries := this
    have hnew : (RetryState.new cs.initialBackoff).currentTry = 0 := rfl
    omega
  · intro cs r env out hall hfe
    exact fetchLoop_lastErr cs env r out hall hfe
  · intro cs r resp env fuel e bodyRest hb hex
    exact ⟨{ result := Except.error (ReadErr.fromBody e), finalState := r,
             finalResponse := { resp with body := bodyRest }, resumeAttempts := 0,
             resumeRequests := [], envRest := env },
           by rw [readLoop]; simp [hb, hex], rfl⟩

/-- Witness for C3 part one: with tries = 4 and four consecutive retryable
failures, exactly 4 attempts are made (4 + 0 ≤ 4). -/
theorem claim_c3_witness : (4 : Nat) + 0 ≤ 4 :=
  claim_c3.1
    { tries := 4, initialBackoff := durOf 100, maxBackoff := durOf 1000,
      backoffFactor := { num := 3, den := 2 } }
    (RetryState.new (durOf 100))
    (List.replicate 4 (Except.error { status := none }))
    { result := Except.error (TransportErrorKind.failure, { status := none }),
      finalState := { currentTry := 3, wait := durOf 225, nextByte := 0 },
      attempts := 4,
      requests := List.replicate 4 { method := "GET", rangeHeader := none },
      waits := [durOf 100, durOf 150, durOf 225] }
    (by decide) (by decide) (by decide) (by decide)

/-- C9: with `tries = 0` the `u32` subtraction `tries - 1` in the exhaustion
check wraps to 2^32 - 1 (release-build semantics; a debug build would panic),
so the check never fires while the counter stays below 2^32 - 1: every
supplied retryable outcome is consumed and retried, and the loop is still
running after all of them — far beyond the configured total of 0 attempts. -/
theorem claim_c9 :
    u32sub 0 1 = U32MOD - 1
    ∧ (∀ (cs : ClientSettings) (r : RetryState) env,
      cs.tries = 0 → env.all retryableOutcome = true →
      r.currentTry + env.length < U32MOD - 1 →
      fetchLoop cs r env = none) := by
  constructor
  · rfl
  · intro cs r env h0 hall hlen
    induction env generalizing r with
    | nil => rfl
    | cons o rest ih =>
      rw [List.all_cons, Bool.and_eq_true] at hall
      rw [fetchLoop]
      rcases hcl : classify o with resp | e | e | e <;> simp only [hcl]
      · exfalso
        have hro := hall.1
        unfold retryableOutcome at hro
        rw [hcl] at hro
        simp at hro
      · exfalso
        have hro := hall.1
        unfold retryableOutcome at hro
        rw [hcl] at hro
        simp at hro
      · exfalso
        have hro := hall.1
        unfold retryableOutcome at hro
        rw [hcl] at hro
        simp at hro
      · have hlen' : r.currentTry < U32MOD - 1 := by
          simp only [List.length_cons] at hlen
          omega
        have hsub : u32sub 0 1 = U32MOD - 1 := rfl
        have hneg : ¬ u32sub cs.tries 1 ≤ r.currentTry := by
          rw [h0, hsub]
          omega
        rw [if_neg hneg]
        have hmod : r.currentTry + 1 < U32MOD := by
          have h32 : 2 ≤ U32MOD := by norm_num [U32MOD]
          omega
        have hct := increment_currentTry r cs hmod
        have hrec := ih (r.increment cs) hall.2 (by
          simp only [List.length_cons] at hlen
          omega)
        rw [hrec]

/-- Witness for C9: tries = 0, five consecutive retryable outcomes, all five
consumed with the loop still running. -/
theorem claim_c9_witness :
    fetchLoop
      { tries := 0, initialBackoff := durOf 100, maxBackoff := durOf 1000,
        backoffFactor := { num := 3, den := 2 } }
      (RetryState.new (durOf 100))
      (List.replicate 5 (Except.error { status := none })) = none :=
  claim_c9.2 _ _ _ rfl (by decide) (by decide)

/-- Counterexample to C4 as stated: with B0 = 500, F = 3/2 and Bmax = 750 the
grown value 500 · 3/2 equals Bmax exactly; the claim's "grows geometrically
by factor F, capped at Bmax" predicts a wait of 750 before the second retry,
but the source's `Ordering::Equal` arm keeps the old wait, so every wait
stays 500. -/
theorem claim_c4_counterexample :
    (fetchLoop
        { tries := 4, initialBackoff := durOf 500, maxBackoff := durOf 750,
          backoffFactor := { num := 3, den := 2 } }
        (RetryState.new (durOf 500))
        (List.replicate 4 (Except.error { status := none }))).map FetchResultS.waits
      = some [durOf 500, durOf 500, durOf 500]
    ∧ claimWait (durOf 500) { num := 3, den := 2 } (durOf 750) 2 = durOf 750
    ∧ durOf 500 ≠ durOf 750 :=
  ⟨by decide, by decide, by decide⟩

/-- C4 (amended): the wait before the first retry is B0; before each later
retry the previous wait is multiplied by F, clamped to Bmax when the product
strictly exceeds Bmax, and kept unchanged when the product equals Bmax
exactly (`amendedWait`).  In particular with tries = 4, B0 = 100ms, F = 1.5,
Bmax = 1s, failing attempts produce waits of exactly 100ms, 150ms, 225ms, and
after the 4th failed attempt no further retry occurs (only 4 attempts are
made even with more outcomes available) and the last error is returned. -/
theorem claim_c4_amended :
    (∀ (cs : ClientSettings) env out,
      1 ≤ cs.tries → cs.tries < U32MOD →
      env.all retryableOutcome = true →
      fetchLoop cs (RetryState.new cs.initialBackoff) env = some out →
      out.waits = (List.range (out.attempts - 1)).map
        (fun i => amendedWait cs.initialBackoff cs.backoffFactor cs.maxBackoff (i + 1)))
    ∧ (fetchLoop
        { tries := 4, initialBackoff := durOf 100, maxBackoff := durOf 1000,
          backoffFactor := { num := 3, den := 2 } }
        (RetryState.new (durOf 100))
        (List.replicate 5 (Except.error { status := none }))).map
        (fun o => (o.waits, o.attempts, o.result))
      = some ([durOf 100, durOf 150, durOf 225], 4,
          Except.error (TransportErrorKind.failure, { status := none })) := by
  constructor
  · intro cs env out h1 h2 hall hfe
    have := fetchLoop_waits cs h1 h2 env (RetryState.new cs.initialBackoff) out hall
      h1 rfl hfe
    simpa [RetryState.new] using this
  · decide

/-- Witness for C4 (amended) at the concrete policy of the claim: the wait
sequence of four failing attempts matches the amended stepping rule. -/
theorem claim_c4_amended_witness :
    ([durOf 100, durOf 150, durOf 225] : List Dur)
      = (List.range (4 - 1)).map
        (fun i => amendedWait (durOf 100) { num := 3, den := 2 } (durOf 1000) (i + 1)) :=
  claim_c4_amended.1
    { tries := 4, initialBackoff := durOf 100, maxBackoff := durOf 1000,
      backoffFactor := { num := 3, den := 2 } }
    (List.replicate 4 (Except.error { status := none }))
    { result := Except.error (TransportErrorKind.failure, { status := none }),
      finalState := { currentTry := 3, wait := durOf 225, nextByte := 0 },
      attempts := 4,
      requests := List.replicate 4 { method := "GET", rangeHeader := none },
      waits := [durOf 100, durOf 150, durOf 225] }
    (by decide) (by decide) (by decide) (by decide)

/-- C2: on a mid-stream read failure with retry attempts remaining: if the
prior response advertised byte-range support, a follow-up request is issued
whose first request carries `Range: bytes=n-` where n is the number of bytes
already returned to the caller (`next_byte`), and the resume fetch runs with
the shared retry state carried over (same byte offset, the same attempt
counter stepped once, not reset); if the prior response did not advertise
byte-range support, the read error is surfaced immediately with no follow-up
request.  A successful body read advances `next_byte` by the size returned,
so `next_byte` is the count of bytes previously returned to the caller. -/
theorem claim_c2 :
    (∀ (cs : ClientSettings) (r : RetryState) (resp : Response) env fuel e bodyRest res,
      resp.body = Except.error e :: bodyRest →
      r.currentTry < u32sub cs.tries 1 →
      supports_range resp = true →
      readLoop cs (fuel + 1) r resp env = some res →
      1 ≤ res.resumeAttempts
      ∧ res.resumeRequests.head? = some (build_request r.nextByte)
      ∧ (0 < r.nextByte → (build_request r.nextByte).rangeHeader
          = some ("bytes=" ++ toString r.nextByte ++ "-"))
      ∧ (r.increment cs).nextByte = r.nextByte
      ∧ (r.increment cs).currentTry = (r.currentTry + 1) % U32MOD
      ∧ ∃ out, fetchLoop cs (r.increment cs) env = some out
          ∧ out.requests.head? = some (build_request r.nextByte))
    ∧ (∀ (cs : ClientSettings) (r : RetryState) (resp : Response) env fuel e bodyRest,
      resp.body = Except.error e :: bodyRest →
      r.currentTry < u32sub cs.tries 1 →
      supports_range resp = false →
      readLoop cs (fuel + 1) r resp env
        = some { result := Except.error (ReadErr.fromBody e),
                 finalState := r.increment cs,
                 finalResponse := { resp with body := bodyRest },
                 resumeAttempts := 0, resumeRequests := [], envRest := env })
    ∧ (∀ (cs : ClientSettings) (r : RetryState) (resp : Response) env fuel sz bodyRest,
      resp.body = Except.ok sz :: bodyRest →
      readLoop cs (fuel + 1) r resp env
        = some { result := Except.ok sz,
                 finalState := { r with nextByte := r.nextByte + sz },
                 finalResponse := { resp with body := bodyRest },
                 resumeAttempts := 0, resumeRequests := [], envRest := env }) := by
  refine ⟨?_, ?_, ?_⟩
  · intro cs r resp env fuel e bodyRest res hb hlt hsr h
    rw [readLoop] at h
    rw [hb] at h
    simp only at h
    rw [if_neg (not_le.mpr hlt)] at h
    rw [if_pos hsr] at h
    rcases hfe : fetchLoop cs (r.increment cs) env with _ | out
    · rw [hfe] at h
      exact absurd h (by simp)
    · simp only [hfe] at h
      obtain ⟨hpos, hhead⟩ := fetchLoop_head cs env (r.increment cs) out hfe
      have hnb := increment_nextByte r cs
      rw [hnb] at hhead
      have hrange : 0 < r.nextByte → (build_request r.nextByte).rangeHeader
          = some ("bytes=" ++ toString r.nextByte ++ "-") := by
        intro h0
        rw [build_request, if_neg (by omega)]
      rcases hout : out.result with te | rr <;> simp only [hout] at h
      · obtain rfl := Option.some.inj h
        exact ⟨hpos, hhead, hrange, hnb, increment_currentTry_mod r cs,
          ⟨out, rfl, hhead⟩⟩
      · rcases hrec : readLoop cs fuel out.finalState rr.response
            (env.drop out.attempts) with _ | res'
        · rw [hrec] at h
          exact absurd h (by simp)
        · rw [hrec] at h
          obtain rfl := Option.some.inj h
          refine ⟨show 1 ≤ out.attempts + res'.resumeAttempts by omega, ?_, hrange,
            hnb, increment_currentTry_mod r cs, ⟨out, rfl, hhead⟩⟩
          show (out.requests ++ res'.resumeRequests).head? = some (build_request r.nextByte)
          rcases hreq : out.requests with _ | ⟨q, qs⟩
          · rw [hreq] at hhead
            simp at hhead
          · rw [hreq] at hhead
            simpa using hhead
  · intro cs r resp env fuel e bodyRest hb hlt hsr
    rw [readLoop]
    rw [hb]
    simp only
    rw [if_neg (not_le.mpr hlt)]
    rw [if_neg (by simp [hsr])]
  · intro cs r resp env fuel sz bodyRest hb
    rw [readLoop]
    rw [hb]

/-- Witness for C2: after 5 bytes were consumed, the follow-up request of a
range-supporting resume carries `Range: bytes=5-`. -/
theorem claim_c2_witness :
    ([{ method := "GET", rangeHeader := some "bytes=5-" }] : List Request).head?
      = some (build_request 5) :=
  (claim_c2.1
    { tries := 4, initialBackoff := durOf 100, maxBackoff := durOf 1000,
      backoffFactor := { num := 3, den := 2 } }
    { currentTry := 0, wait := durOf 100, nextByte := 5 }
    { status := 200, acceptRanges := some "bytes",
      body := [Except.error (IoErrKind.other 7, 0)] }
    [Except.ok { status := 206, acceptRanges := some "bytes", body := [Except.ok 3] }]
    1 (IoErrKind.other 7, 0) []
    { result := Except.ok 3,
      finalState := { currentTry := 1, wait := durOf 100, nextByte := 8 },
      finalResponse := { status := 206, acceptRanges := some "bytes", body := [] },
      resumeAttempts := 1,
      resumeRequests := [{ method := "GET", rangeHeader := some "bytes=5-" }],
      envRest := [] }
    rfl (by decide) (by decide) (by decide)).2.1

/-- C10: whenever a mid-stream resume attempt inside `RetryRead::read` fails,
for any transport error kind whatsoever, the error surfaced to the caller is a
`std::io::Error` built with kind `NotFound` (the `map_err` wrapper), so the
surfaced kind is `NotFound` regardless of the underlying transport error. -/
theorem claim_c10 :
    ∀ (cs : ClientSettings) (fuel : Nat) (r : RetryState) (resp : Response)
      (env : List ExecResult) (res : ReadResultS) (k : IoErrKind) (te : TErr),
      readLoop cs fuel r resp env = some res →
      res.result = Except.error (ReadErr.resumeFailed k te) →
      k = IoErrKind.notFound := by
  intro cs fuel
  induction fuel with
  | zero =>
    intro r resp env res k te h _
    simp [readLoop] at h
  | succ fuel ih =>
    intro r resp env res k te h hres
    rw [readLoop] at h
    rcases hb : resp.body with _ | ⟨ev, bodyRest⟩ <;> rw [hb] at h
    · obtain rfl := Option.some.inj h
      exact absurd hres (by simp)
    · rcases ev with e | sz
      · simp only at h
        by_cases hex : u32sub cs.tries 1 ≤ r.currentTry
        · rw [if_pos hex] at h
          obtain rfl := Option.some.inj h
          exact absurd hres (by simp)
        · rw [if_neg hex] at h
          by_cases hsr : supports_range resp
          · rw [if_pos hsr] at h
            rcases hfe : fetchLoop cs (r.increment cs) env with _ | out
            · rw [hfe] at h
              exact absurd h (by simp)
            · simp only [hfe] at h
              rcases hout : out.result with te' | rr <;> simp only [hout] at h
              · obtain rfl := Option.some.inj h
                have h2 : Except.error (ReadErr.resumeFailed IoErrKind.notFound te')
                    = Except.error (ReadErr.resumeFailed k te) := hres
                exact ((ReadErr.resumeFailed.inj (Except.error.inj h2)).1).symm
              · rcases hrec : readLoop cs fuel out.finalState rr.response
                    (env.drop out.attempts) with _ | res'
                · rw [hrec] at h
                  exact absurd h (by simp)
                · rw [hrec] at h
                  obtain rfl := Option.some.inj h
                  exact ih out.finalState rr.response (env.drop out.attempts)
                    res' k te hrec hres
          · rw [if_neg hsr] at h
            obtain rfl := Option.some.inj h
            exact absurd hres (by simp)
      · simp only at h
        obtain rfl := Option.some.inj h
        exact absurd hres (by simp)

/-- Witness for C10: a mid-stream failure resumed against a server that then
answers 400 (a Failure-kind transport error) is surfaced wrapped in an I/O
error of kind NotFound. -/
theorem claim_c10_witness :
    (readLoop
        { tries := 4, initialBackoff := durOf 100, maxBackoff := durOf 1000,
          backoffFactor := { num := 3, den := 2 } }
        1 { currentTry := 0, wait := durOf 100, nextByte := 3 }
        { status := 200, acceptRanges := some "bytes",
          body := [Except.error (IoErrKind.other 7, 0)] }
        [Except.ok { status := 400, acceptRanges := none, body := [] }]).map
      ReadResultS.result
      = some (Except.error (ReadErr.resumeFailed IoErrKind.notFound
          (TransportErrorKind.failure, { status := some 400 })))
    ∧ IoErrKind.notFound = IoErrKind.notFound :=
  ⟨by decide,
   claim_c10
     { tries := 4, initialBackoff := durOf 100, maxBackoff := durOf 1000,
       backoffFactor := { num := 3, den := 2 } }
     1 { currentTry := 0, wait := durOf 100, nextByte := 3 }
     { status := 200, acceptRanges := some "bytes",
       body := [Except.error (IoErrKind.other 7, 0)] }
     [Except.ok { status := 400, acceptRanges := none, body := [] }]
     { result := Except.error (ReadErr.resumeFailed IoErrKind.notFound
         (TransportErrorKind.failure, { status := some 400 })),
       finalState := { currentTry := 1, wait := durOf 100, nextByte := 3 },
       finalResponse := { status := 200, acceptRanges := some "bytes", body := [] },
       resumeAttempts := 1,
       resumeRequests := [{ method := "GET", rangeHeader := some "bytes=3-" }],
       envRest := [] }
     IoErrKind.notFound (TransportErrorKind.failure, { status := some 400 })
     (by decide) rfl⟩

/-- C1: during a fetch, a non-success status (one the client rejects, i.e.
400–599) is classified as follows: a server-error status (5xx) is retryable;
status 403 or 404 is terminal FileNotFound; any other non-success status is
terminal Failure.  `parse_response` feeds exactly the response's status into
this classification, and the two terminal classes make `fetch_with_retries`
return after that single attempt with no retry, regardless of the retry
budget. -/
theorem claim_c1 :
    (∀ (e : ReqError) (s : Nat), 500 ≤ s → s ≤ 599 →
      parse_status_err e s = HttpResult.retryable e)
    ∧ (∀ (e : ReqError) (s : Nat), s = 403 ∨ s = 404 →
      parse_status_err e s = HttpResult.fileNotFound e)
    ∧ (∀ (e : ReqError) (s : Nat), 400 ≤ s → s ≤ 599 → ¬(500 ≤ s ∧ s ≤ 599) →
      s ≠ 403 → s ≠ 404 → parse_status_err e s = HttpResult.fatal e)
    ∧ (∀ resp : Response, 400 ≤ resp.status → resp.status ≤ 599 →
      parse_response resp = parse_status_err { status := some resp.status } resp.status)
    ∧ (∀ (cs : ClientSettings) (r : RetryState) (o : ExecResult) env e out,
      classify o = HttpResult.fileNotFound e →
      fetchLoop cs r (o :: env) = some out →
      out.result = Except.error (TransportErrorKind.fileNotFound, e)
        ∧ out.attempts = 1 ∧ out.waits = [])
    ∧ (∀ (cs : ClientSettings) (r : RetryState) (o : ExecResult) env e out,
      classify o = HttpResult.fatal e →
      fetchLoop cs r (o :: env) = some out →
      out.result = Except.error (TransportErrorKind.failure, e)
        ∧ out.attempts = 1 ∧ out.waits = []) := by
  refine ⟨?_, ?_, ?_, ?_, ?_, ?_⟩
  · intro e s h1 h2
    have hb : isServerError s = true := by
      unfold isServerError
      simp only [Bool.and_eq_true, decide_eq_true_eq]
      exact ⟨h1, h2⟩
    unfold parse_status_err
    rw [hb]
    rfl
  · intro e s hs
    have hb : isServerError s = false := by
      unfold isServerError
      rcases hs with rfl | rfl <;> rfl
    unfold parse_status_err
    rw [hb]
    simp only [Bool.false_eq_true, if_false]
    rw [if_pos hs]
  · intro e s _ _ hns h403 h404
    have hb : isServerError s = false := by
      unfold isServerError
      simp only [Bool.and_eq_false_iff, decide_eq_false_iff_not]
      by_cases h : 500 ≤ s
      · exact Or.inr (fun h2 => hns ⟨h, h2⟩)
      · exact Or.inl h
    unfold parse_status_err
    rw [hb]
    simp only [Bool.false_eq_true, if_false]
    rw [if_neg (by rintro (rfl | rfl) <;> simp at h403 h404)]
  · intro resp h1 h2
    have hef : error_for_status resp = Except.error { status := some resp.status } := by
      unfold error_for_status
      rw [if_pos ⟨h1, h2⟩]
    unfold parse_response
    rw [hef]
  · intro cs r o env e out hcl hfl
    rw [fetchLoop] at hfl
    simp only [hcl] at hfl
    obtain rfl := Option.some.inj hfl
    exact ⟨rfl, rfl, rfl⟩
  · intro cs r o env e out hcl hfl
    rw [fetchLoop] at hfl
    simp only [hcl] at hfl
    obtain rfl := Option.some.inj hfl
    exact ⟨rfl, rfl, rfl⟩

/-- Witness for C1 at statuses 503, 404 and 401. -/
theorem claim_c1_witness :
    parse_status_err { status := some 503 } 503 = HttpResult.retryable { status := some 503 }
    ∧ parse_status_err { status := some 404 } 404 = HttpResult.fileNotFound { status := some 404 }
    ∧ parse_status_err { status := some 401 } 401 = HttpResult.fatal { status := some 401 } :=
  ⟨claim_c1.1 _ 503 (by decide) (by decide),
   claim_c1.2.1 _ 404 (Or.inr rfl),
   claim_c1.2.2.1 _ 401 (by decide) (by decide) (by decide) (by decide) (by decide)⟩

/-- C5: a transport-level error carrying no HTTP response status (an `Err`
from `client.execute`, raised before any header was read) is classified
retryable, and while attempts remain the fetch loop goes on to execute at
least one further request after it rather than returning. -/
theorem claim_c5 :
    (∀ e : ReqError, classify (Except.error e) = HttpResult.retryable e)
    ∧ (∀ (cs : ClientSettings) (r : RetryState) (e : ReqError) env out,
      r.currentTry < u32sub cs.tries 1 →
      fetchLoop cs r (Except.error e :: env) = some out →
      2 ≤ out.attempts) := by
  refine ⟨fun e => rfl, ?_⟩
  intro cs r e env out hlt hfl
  rw [fetchLoop] at hfl
  simp only [classify] at hfl
  rw [if_neg (not_le.mpr hlt)] at hfl
  rcases hrec : fetchLoop cs (r.increment cs) env with _ | out'
  · rw [hrec] at hfl
    exact absurd hfl (by simp)
  · rw [hrec] at hfl
    obtain rfl := Option.some.inj hfl
    have h1 := (fetchLoop_head cs env (r.increment cs) out' hrec).1
    show 2 ≤ out'.attempts + 1
    omega

/-- Witness for C5: with tries = 4 and a status-less transport error on each
attempt, the loop keeps retrying (4 attempts in total here). -/
theorem claim_c5_witness :
    classify (Except.error { status := none }) = HttpResult.retryable { status := none }
    ∧ (2 : Nat) ≤ 4 :=
  ⟨claim_c5.1 { status := none },
   claim_c5.2
     { tries := 4, initialBackoff := durOf 100, maxBackoff := durOf 1000,
       backoffFactor := { num := 3, den := 2 } }
     (RetryState.new (durOf 100)) { status := none }
     [Except.error { status := none }, Except.error { status := none },
      Except.error { status := none }]
     { result := Except.error (TransportErrorKind.failure, { status := none }),
       finalState := { currentTry := 3, wait := durOf 225, nextByte := 0 },
       attempts := 4,
       requests := [{ method := "GET", rangeHeader := none },
         { method := "GET", rangeHeader := none },
         { method := "GET", rangeHeader := none },
         { method := "GET", rangeHeader := none }],
       waits := [durOf 100, durOf 150, durOf 225] }
     (by decide) (by decide)⟩

lemma rotateRoot_consec (k : Nat) (verify : RootDoc → RootDoc → Bool)
    (hv : ∀ a b, verify a b = true) :
    ∀ (limit v : Nat), 1 ≤ v → v ≤ k → k - v ≤ limit →
      rotateRoot (consecRoots k) verify limit { version := v }
        = Except.ok { version := k } := by
  intro limit
  induction limit with
  | zero =>
    intro v h1 h2 h3
    have hvk : v = k := by omega
    rw [rotateRoot]
    have hnf : consecRoots k (k + 1) = FetchRes.notFound := by
      unfold consecRoots
      rw [if_neg (by omega)]
    simp only [hvk, hnf]
  | succ limit ih =>
    intro v h1 h2 h3
    rw [rotateRoot]
    by_cases hvk : v = k
    · have hnf : consecRoots k (k + 1) = FetchRes.notFound := by
        unfold consecRoots
        rw [if_neg (by omega)]
      simp only [hvk, hnf]
    · have hfd : consecRoots k (v + 1) = FetchRes.found { version := v + 1 } := by
        unfold consecRoots
        rw [if_pos (by omega)]
      simp only [hfd]
      rw [if_pos (by simp [hv])]
      exact ih (v + 1) (by omega) (by omega) (by omega)

/-- C6: in spec-modelled root rotation, a NotFound on fetching version N+1
completes rotation successfully with the current root version N (no error);
consequently, over a repository serving exactly the consecutive root versions
1..K (with K+1 absent) and signatures that verify, rotation starting from
version 1 with a sufficient rotation budget ends at exactly version K. -/
theorem claim_c6 :
    (∀ (repo : Nat → FetchRes RootDoc) (verify : RootDoc → RootDoc → Bool)
      (limit : Nat) (current : RootDoc),
      repo (current.version + 1) = FetchRes.notFound →
      rotateRoot repo verify limit current = Except.ok current)
    ∧ (∀ (k limit : Nat) (verify : RootDoc → RootDoc → Bool),
      1 ≤ k → k - 1 ≤ limit → (∀ a b, verify a b = true) →
      rotateRoot (consecRoots k) verify limit { version := 1 }
        = Except.ok { version := k }) := by
  constructor
  · intro repo verify limit current hnf
    cases limit with
    | zero =>
      rw [rotateRoot]
      simp only [hnf]
    | succ l =>
      rw [rotateRoot]
      simp only [hnf]
  · intro k limit verify h1 h2 hv
    exact rotateRoot_consec k verify hv limit 1 (Nat.le_refl 1) h1 (by omega)

/-- Witness for C6: roots 1..5 with root 6 absent; rotation from root 1 ends
at exactly root 5 with no error. -/
theorem claim_c6_witness :
    rotateRoot (consecRoots 5) (fun _ _ => true) 6 { version := 1 }
      = Except.ok { version := 5 } :=
  claim_c6.2 5 6 (fun _ _ => true) (by decide) (by decide) (fun _ _ => rfl)

/-- C7: in the spec-modelled loader, a repository whose Timestamp is expired
(and which passes every non-expiration check) fails under the Enforcing
(Safe) mode with an expired-metadata error identifying the Timestamp role,
while the identical input under the Permissive (Unsafe) mode loads
successfully and yields a Repository. -/
theorem claim_c7 :
    ∀ input : RepoInput,
    input.timestamp.sigOk = true → input.timestamp.digestOk = true →
    input.snapshot.sigOk = true → input.snapshot.digestOk = true →
    input.targets.sigOk = true → input.targets.digestOk = true →
    input.timestamp.expires ≤ input.now →
    loadRepository ExpirationEnforcement.enforcing input
      = Except.error (LoadErr.expiredMetadata RoleType.timestamp)
    ∧ loadRepository ExpirationEnforcement.permissive input
      = Except.ok { timestamp := input.timestamp, snapshot := input.snapshot,
                    targets := input.targets } := by
  intro input h1 h2 h3 h4 h5 h6 hexp
  constructor
  · simp [loadRepository, loadRole, checkExpiration, h1, h2, hexp,
      Bind.bind, Except.bind, Functor.map, Except.map]
  · simp [loadRepository, loadRole, checkExpiration, h1, h2, h3, h4, h5, h6,
      Bind.bind, Except.bind, Functor.map, Except.map, Pure.pure, Except.pure]

/-- Witness for C7 at a concrete expired repository. -/
theorem claim_c7_witness :
    loadRepository ExpirationEnforcement.enforcing
      { now := 100,
        timestamp := { version := 1, expires := 50, sigOk := true, digestOk := true },
        snapshot := { version := 1, expires := 200, sigOk := true, digestOk := true },
        targets := { version := 1, expires := 200, sigOk := true, digestOk := true } }
      = Except.error (LoadErr.expiredMetadata RoleType.timestamp)
    ∧ loadRepository ExpirationEnforcement.permissive
      { now := 100,
        timestamp := { version := 1, expires := 50, sigOk := true, digestOk := true },
        snapshot := { version := 1, expires := 200, sigOk := true, digestOk := true },
        targets := { version := 1, expires := 200, sigOk := true, digestOk := true } }
      = Except.ok
        { timestamp := { version := 1, expires := 50, sigOk := true, digestOk := true },
          snapshot := { version := 1, expires := 200, sigOk := true, digestOk := true },
          targets := { version := 1, expires := 200, sigOk := true, digestOk := true } } :=
  claim_c7
    { now := 100,
      timestamp := { version := 1, expires := 50, sigOk := true, digestOk := true },
      snapshot := { version := 1, expires := 200, sigOk := true, digestOk := true },
      targets := { version := 1, expires := 200, sigOk := true, digestOk := true } }
    rfl rfl rfl rfl rfl rfl (by decide)

/-- Counterexample to C8 as stated: the claim quantifies over every URL, but
a URL whose scheme is not `file` makes `FilesystemTransport::fetch` fail with
kind `UnsupportedUrlScheme`, which is neither NotFound nor Failure. -/
theorem claim_c8_counterexample :
    FilesystemTransport.fetch (fun _ => Except.ok [])
      { scheme := "http", path := "/r" }
      = Except.error TransportErrorKind.unsupportedUrlScheme
    ∧ TransportErrorKind.unsupportedUrlScheme ≠ TransportErrorKind.fileNotFound
    ∧ TransportErrorKind.unsupportedUrlScheme ≠ TransportErrorKind.failure :=
  ⟨by decide, by decide, by decide⟩

/-- C8 (amended): for every `file`-scheme URL, fetch either returns the byte
stream or fails with a kind in {FileNotFound, Failure}; a not-found open
error maps to FileNotFound and every other open error maps to Failure.  A
URL of any other scheme fails with kind UnsupportedUrlScheme. -/
theorem claim_c8_amended :
    (∀ (fs : String → Except IoErrKind (List Nat)) (url : UrlS),
      url.scheme = "file" →
      (∀ c, fs url.path = Except.ok c →
        FilesystemTransport.fetch fs url = Except.ok c)
      ∧ (fs url.path = Except.error IoErrKind.notFound →
        FilesystemTransport.fetch fs url = Except.error TransportErrorKind.fileNotFound)
      ∧ (∀ k, fs url.path = Except.error (IoErrKind.other k) →
        FilesystemTransport.fetch fs url = Except.error TransportErrorKind.failure)
      ∧ (∀ e, FilesystemTransport.fetch fs url = Except.error e →
        e = TransportErrorKind.fileNotFound ∨ e = TransportErrorKind.failure))
    ∧ (∀ (fs : String → Except IoErrKind (List Nat)) (url : UrlS),
      url.scheme ≠ "file" →
      FilesystemTransport.fetch fs url
        = Except.error TransportErrorKind.unsupportedUrlScheme) := by
  constructor
  · intro fs url hscheme
    have hif : ¬ url.scheme ≠ "file" := fun hne => hne hscheme
    refine ⟨?_, ?_, ?_, ?_⟩
    · intro c hfs
      rw [FilesystemTransport.fetch, if_neg hif]
      simp only [hfs]
    · intro hfs
      rw [FilesystemTransport.fetch, if_neg hif]
      simp only [hfs]
    · intro k hfs
      rw [FilesystemTransport.fetch, if_neg hif]
      simp only [hfs]
    · intro e hfetch
      rw [FilesystemTransport.fetch, if_neg hif] at hfetch
      rcases hfs : fs url.path with ek | c <;> simp only [hfs] at hfetch
      · rcases ek with _ | k
        · exact Or.inl (Except.error.inj hfetch).symm
        · exact Or.inr (Except.error.inj hfetch).symm
      · exact absurd hfetch (by simp)
  · intro fs url hscheme
    rw [FilesystemTransport.fetch, if_pos hscheme]

/-- Witness for C8 (amended): a missing file under a `file` URL maps to
FileNotFound. -/
theorem claim_c8_witness :
    FilesystemTransport.fetch (fun _ => Except.error IoErrKind.notFound)
      { scheme := "file", path := "/missing" }
      = Except.error TransportErrorKind.fileNotFound :=
  ((claim_c8_amended.1 (fun _ => Except.error IoErrKind.notFound)
      { scheme := "file", path := "/missing" } rfl).2.1) rfl

end Tough
